import Mathlib

/-!
Shallow embedding of the KARMIC favor-marketplace application (`src/app.py`).

Users post requests backed by escrowed coins; other users accept, confirm,
and the requester approves, releasing the reward and experience points.
Each Flask route handler is modelled as a pure function from an explicit
application state (the three database tables) and the session's user id to
a new state plus an `Outcome` (a redirect with an optional flash notice, or
an unhandled Python exception).
-/

namespace Karmic

/-- The difficulty → XP mapping (`XP_MAPPING` in `app.py`). -/
def XP_MAPPING : String → Option Nat
  | "Easy" => some 10
  | "Medium" => some 25
  | "Hard" => some 50
  | _ => none

/-- Rank from experience points (`get_karmic_rank` in `app.py`). -/
def get_karmic_rank (xp : Nat) : String :=
  if xp ≥ 500 then "Karmic Master"
  else if xp ≥ 200 then "Community Elder"
  else if xp ≥ 50 then "Active Peer"
  else if xp ≥ 10 then "Helper Recruit"
  else "Newbie"

/-- A row of the `User` table. -/
structure User where
  id : Nat
  username : String
  coins : Nat
  experience_points : Nat
deriving DecidableEq, Repr

/-- A row of the `Request` table. -/
structure Request where
  id : Nat
  title : String
  description : String
  reward_coins : Nat
  difficulty : String
  xp_value : Nat
  requester_id : Nat
  helper_id : Option Nat
  status : String
deriving DecidableEq, Repr

/-- A row of the `Message` table (timestamps as naturals). -/
structure Message where
  id : Nat
  request_id : Nat
  sender_id : Nat
  content : String
  timestamp : Nat
deriving DecidableEq, Repr

/-- The whole database state. -/
structure St where
  users : List User
  requests : List Request
  messages : List Message
deriving DecidableEq, Repr

/-- Result of one route handler: a redirect with a flash notice, a bare
redirect, or an unhandled Python exception escaping the handler. -/
inductive Outcome where
  | redirected (target : String) (flashMsg : String)
  | redirectedNoFlash (target : String)
  | crash (exn : String)
deriving DecidableEq, Repr

/-- Whether an outcome is an unhandled exception. -/
def Outcome.crashed : Outcome → Bool
  | .crash _ => true
  | _ => false

/-- `db.session.get(User, uid)`. -/
def findUser (s : St) (uid : Nat) : Option User :=
  s.users.find? (fun u => u.id == uid)

/-- `db.session.get(Request, rid)`. -/
def findReq (s : St) (rid : Nat) : Option Request :=
  s.requests.find? (fun r => r.id == rid)

/-- `get_current_user()`: the session's `user_id` resolved against the
`User` table (`None` when there is no session entry or it is stale). -/
def resolveUser (s : St) (sess : Option Nat) : Option User :=
  sess.bind (findUser s)

/-- ORM mutation of the user row(s) with the given id. -/
def updUser (l : List User) (uid : Nat) (f : User → User) : List User :=
  l.map (fun u => if u.id == uid then f u else u)

/-- ORM mutation of the request row(s) with the given id. -/
def updReq (l : List Request) (rid : Nat) (f : Request → Request) : List Request :=
  l.map (fun r => if r.id == rid then f r else r)

/-- Fresh autoincrement primary key for `Request`. -/
def nextReqId (l : List Request) : Nat :=
  (l.map (fun r => r.id)).foldr max 0 + 1

/-- Fresh autoincrement primary key for `Message`. -/
def nextMsgId (l : List Message) : Nat :=
  (l.map (fun m => m.id)).foldr max 0 + 1

/-- POST `/create_request` (`create_request` in `app.py`). An anonymous
visitor is redirected to the login page; otherwise the difficulty is mapped
to an XP value (default 10), the reward equals the XP value, and creation is
rejected when the requester's balance is below the reward, else the reward
is debited (escrow) and the new `Live` request is inserted. -/
def create_request (s : St) (sess : Option Nat)
    (title description difficulty : String) : St × Outcome :=
  match resolveUser s sess with
  | none => (s, .redirectedNoFlash "login_signup")
  | some requester =>
    let xp_reward := (XP_MAPPING difficulty).getD 10
    let reward := xp_reward
    if requester.coins < reward then
      (s, .redirected "create_request" "You do not have enough Coins to offer this reward!")
    else
      let new_request : Request :=
        { id := nextReqId s.requests
          title := title
          description := description
          reward_coins := reward
          difficulty := difficulty
          xp_value := xp_reward
          requester_id := requester.id
          helper_id := none
          status := "Live" }
      ({ s with
          users := updUser s.users requester.id (fun u => { u with coins := u.coins - reward })
          requests := s.requests ++ [new_request] },
       .redirected "index" "Request posted successfully! Coins are in escrow.")

/-- GET `/accept_task/<id>` (`accept_task` in `app.py`). The missing-request
and non-`Live` checks run before the actor is dereferenced, so an absent
acting user raises `AttributeError` only on a `Live` request. -/
def accept_task (s : St) (sess : Option Nat) (request_id : Nat) : St × Outcome :=
  match findReq s request_id with
  | none => (s, .redirected "index" "This request is no longer available.")
  | some req =>
    if req.status ≠ "Live" then
      (s, .redirected "index" "This request is no longer available.")
    else
      match resolveUser s sess with
      | none => (s, .crash "AttributeError")
      | some helper =>
        if req.requester_id = helper.id then
          (s, .redirected "index" "You cannot accept your own request!")
        else
          let reqs := updReq s.requests request_id
            (fun r => { r with helper_id := some helper.id, status := "Accepted" })
          ({ s with requests := reqs },
           .redirected "index" "You accepted the task. Use the chat feature to coordinate!")

/-- GET `/helper_confirm/<id>` (`helper_confirm` in `app.py`). The guard
dereferences the actor right after the existence check, before looking at
the status, so an absent acting user on any existing request raises. -/
def helper_confirm (s : St) (sess : Option Nat) (request_id : Nat) : St × Outcome :=
  match findReq s request_id with
  | none =>
    (s, .redirected "index" "Error: This task is not assigned to you or is not ready for confirmation.")
  | some req =>
    match resolveUser s sess with
    | none => (s, .crash "AttributeError")
    | some helper =>
      if req.helper_id ≠ some helper.id ∨ req.status ≠ "Accepted" then
        (s, .redirected "index" "Error: This task is not assigned to you or is not ready for confirmation.")
      else
        let reqs := updReq s.requests request_id (fun r => { r with status := "Confirmed_By_Helper" })
        ({ s with requests := reqs },
         .redirected "index" "You confirmed completion. Awaiting approval from the Requester!")

/-- GET `/requester_approve/<id>` (`requester_approve` in `app.py`). When the
assigned helper row is missing, the code still commits the `Completed` status
and only then hits the undefined `new_rank` in the flash f-string
(`NameError`), so the status change survives the crash. -/
def requester_approve (s : St) (sess : Option Nat) (request_id : Nat) : St × Outcome :=
  match findReq s request_id with
  | none =>
    (s, .redirected "index" "Error: You are not the requester or the helper has not yet confirmed completion.")
  | some req =>
    match resolveUser s sess with
    | none => (s, .crash "AttributeError")
    | some requester =>
      if req.requester_id ≠ requester.id ∨ req.status ≠ "Confirmed_By_Helper" then
        (s, .redirected "index" "Error: You are not the requester or the helper has not yet confirmed completion.")
      else
        match req.helper_id.bind (findUser s) with
        | some helper =>
          let users := updUser s.users helper.id
            (fun u => { u with
                coins := u.coins + req.reward_coins
                experience_points := u.experience_points + req.xp_value })
          let reqs := updReq s.requests request_id (fun r => { r with status := "Completed" })
          ({ s with users := users, requests := reqs },
           .redirected "index" "Approval successful! Coins and XP transferred to the Helper.")
        | none =>
          let reqs := updReq s.requests request_id (fun r => { r with status := "Completed" })
          ({ s with requests := reqs }, .crash "NameError")

/-- POST `/send_message/<id>` (`send_message` in `app.py`). Empty content and
missing request are rejected together first; then the participant check
dereferences the actor (crash when absent); then the message is appended with
the current time as its timestamp. -/
def send_message (s : St) (sess : Option Nat) (request_id : Nat)
    (content : String) (now : Nat) : St × Outcome :=
  match findReq s request_id with
  | none => (s, .redirected "chat_view" "Cannot send empty message or task does not exist.")
  | some req =>
    if content = "" then
      (s, .redirected "chat_view" "Cannot send empty message or task does not exist.")
    else
      match resolveUser s sess with
      | none => (s, .crash "AttributeError")
      | some u =>
        if req.requester_id ≠ u.id ∧ req.helper_id ≠ some u.id then
          (s, .redirected "index" "You are not authorized to chat about this task.")
        else
          ({ s with messages := s.messages ++
              [{ id := nextMsgId s.messages
                 request_id := request_id
                 sender_id := u.id
                 content := content
                 timestamp := now }] },
           .redirectedNoFlash "chat_view")

/-- Timestamp order on messages. -/
def tsLe (a b : Message) : Prop := a.timestamp ≤ b.timestamp

instance : DecidableRel tsLe := fun a b => Nat.decLe a.timestamp b.timestamp

instance : IsTotal Message tsLe := ⟨fun a b => Nat.le_total a.timestamp b.timestamp⟩

instance : IsTrans Message tsLe := ⟨fun _ _ _ h h' => Nat.le_trans h h'⟩

/-- The message list rendered by GET `/chat/<id>` (`chat_view` in `app.py`):
the request's messages ordered by ascending timestamp (`order_by`). -/
def chat_messages (s : St) (request_id : Nat) : List Message :=
  List.insertionSort tsLe (s.messages.filter (fun m => m.request_id == request_id))

/-- Python's comparison of strings, on the lists of code points. -/
def chLe : List Char → List Char → Bool
  | [], _ => true
  | _ :: _, [] => false
  | a :: as, b :: bs =>
    if a.toNat < b.toNat then true
    else if b.toNat < a.toNat then false
    else chLe as bs

/-- The leaderboard sort key of a user, as in `index` in `app.py`. -/
def userKey (u : User) : Nat × Nat × List Char :=
  (u.experience_points, u.coins, u.username.data)

/-- Python's ascending lexicographic comparison of the key tuples. -/
def tupLe (x y : Nat × Nat × List Char) : Bool :=
  if x.1 < y.1 then true else if y.1 < x.1 then false
  else if x.2.1 < y.2.1 then true else if y.2.1 < x.2.1 then false
  else chLe x.2.2 y.2.2

/-- `a` may precede `b` in the descending leaderboard order. -/
def keyGe (a b : User) : Prop := tupLe (userKey b) (userKey a) = true

instance : DecidableRel keyGe := fun _ _ => instDecidableEqBool _ _

/-- The leaderboard of the dashboard (`index` in `app.py`): all users sorted
descending by (experience points, coins, username), truncated to ten. -/
def leaderboard (s : St) : List User :=
  (List.insertionSort keyGe s.users).take 10

/-- Sum of all coin balances. -/
def sumCoins (l : List User) : Nat := (l.map (fun u => u.coins)).sum

/-- Sum of the rewards still held in escrow (requests not `Completed`). -/
def sumEscrow (l : List Request) : Nat :=
  ((l.filter (fun r => r.status != "Completed")).map (fun r => r.reward_coins)).sum

/-- Conserved quantity: circulating coins plus escrowed coins. -/
def totalWealth (s : St) : Nat := sumCoins s.users + sumEscrow s.requests

/-- Escrow contribution of a single request. -/
def escrowVal (r : Request) : Nat :=
  if r.status != "Completed" then r.reward_coins else 0

/-! ### Concrete states used as witnesses -/

/-- The three users of the spec's leaderboard example, in the listed order. -/
def ex8 : St :=
  { users :=
      [ { id := 1, username := "b", coins := 10, experience_points := 500 }
      , { id := 2, username := "a", coins := 20, experience_points := 500 }
      , { id := 3, username := "c", coins := 0, experience_points := 100 } ]
    requests := []
    messages := [] }

/-- The first default user of `initialize_app`. -/
def userA : User := { id := 1, username := "RequesterA", coins := 500, experience_points := 120 }

/-- The second default user of `initialize_app`. -/
def userB : User := { id := 2, username := "HelperB", coins := 100, experience_points := 60 }

/-- A registered user with almost no coins left. -/
def userP : User := { id := 3, username := "PoorC", coins := 5, experience_points := 0 }

/-- A request of `userA`, helped by `userB`, awaiting requester approval. -/
def reqCBH : Request :=
  { id := 1, title := "fix bike", description := "flat tire"
    reward_coins := 25, difficulty := "Medium", xp_value := 25
    requester_id := 1, helper_id := some 2, status := "Confirmed_By_Helper" }

/-- A live request of `userA`. -/
def reqLive : Request :=
  { id := 2, title := "water plants", description := "two pots"
    reward_coins := 10, difficulty := "Easy", xp_value := 10
    requester_id := 1, helper_id := none, status := "Live" }

/-- A small running state: the two default users, one request awaiting
approval and one live request. -/
def exSt : St :=
  { users := [userA, userB, userP]
    requests := [reqCBH, reqLive]
    messages :=
      [ { id := 1, request_id := 1, sender_id := 1, content := "hi", timestamp := 5 }
      , { id := 2, request_id := 1, sender_id := 2, content := "hello", timestamp := 3 } ] }

/-! ### Helper lemmas about lookups, updates and sums -/

theorem find?_map_of_pred_eq {α : Type} (p : α → Bool) (g : α → α)
    (hg : ∀ a, p (g a) = p a) : ∀ l : List α, (l.map g).find? p = (l.find? p).map g
  | [] => rfl
  | a :: l => by
    simp only [List.map_cons, List.find?]
    rw [hg a]
    cases hpa : p a
    · simpa using find?_map_of_pred_eq p g hg l
    · rfl

theorem find?_updUser (l : List User) (uid vid : Nat) (f : User → User)
    (hf : ∀ u, (f u).id = u.id) :
    (updUser l uid f).find? (fun u => u.id == vid) =
      (l.find? (fun u => u.id == vid)).map (fun u => if u.id == uid then f u else u) := by
  refine find?_map_of_pred_eq _ _ (fun u => ?_) l
  by_cases h : u.id == uid
  · simp [h, hf]
  · simp [h]

theorem find?_updReq (l : List Request) (rid vid : Nat) (f : Request → Request)
    (hf : ∀ r, (f r).id = r.id) :
    (updReq l rid f).find? (fun r => r.id == vid) =
      (l.find? (fun r => r.id == vid)).map (fun r => if r.id == rid then f r else r) := by
  refine find?_map_of_pred_eq _ _ (fun r => ?_) l
  by_cases h : r.id == rid
  · simp [h, hf]
  · simp [h]

theorem resolveUser_some (s : St) (sess : Option Nat) (u : User)
    (h : resolveUser s sess = some u) : sess = some u.id ∧ findUser s u.id = some u := by
  cases sess with
  | none => simp [resolveUser] at h
  | some sid =>
    simp only [resolveUser, Option.some_bind] at h
    have hid : u.id = sid := by
      have hp := List.find?_some h
      simpa using hp
    exact ⟨by rw [hid], by rw [hid]; exact h⟩

theorem find?_updReq_found (l : List Request) (rid : Nat) (f : Request → Request)
    (hf : ∀ q, (f q).id = q.id) (r : Request)
    (hr : l.find? (fun q => q.id == rid) = some r) :
    (updReq l rid f).find? (fun q => q.id == rid) = some (f r) := by
  rw [find?_updReq l rid rid f hf, hr]
  have hrid : r.id = rid := by simpa using List.find?_some hr
  simp [hrid]

theorem map_update_eq_self {α : Type} (idf : α → Nat) (uid : Nat) (f : α → α) :
    ∀ l : List α, (∀ a ∈ l, (idf a == uid) = false) →
      l.map (fun a => if idf a == uid then f a else a) = l
  | [], _ => rfl
  | a :: l, h => by
    have ha : (idf a == uid) = false := h a (List.mem_cons_self a l)
    have tail := map_update_eq_self idf uid f l (fun b hb => h b (List.mem_cons_of_mem a hb))
    simp only [List.map_cons, tail]
    rw [if_neg (by simp [ha])]

theorem sum_map_update {α : Type} (g : α → Nat) (idf : α → Nat) (uid : Nat) (f : α → α) :
    ∀ l : List α, (l.map idf).Nodup → ∀ u : α,
      l.find? (fun a => idf a == uid) = some u →
      ((l.map (fun a => if idf a == uid then f a else a)).map g).sum + g u
        = (l.map g).sum + g (f u)
  | [], _, u, hu => by simp [List.find?] at hu
  | a :: l, hnd, u, hu => by
    rw [List.map_cons, List.nodup_cons] at hnd
    cases hpa : (idf a == uid) with
    | false =>
      have hu' : l.find? (fun a => idf a == uid) = some u := by
        simpa [List.find?, hpa] using hu
      have ih := sum_map_update g idf uid f l hnd.2 u hu'
      simp only [List.map_cons, List.sum_cons]
      rw [if_neg (by simp [hpa])]
      omega
    | true =>
      have hua : u = a := by
        simp [List.find?, hpa] at hu
        exact hu.symm
      subst hua
      have hiu : idf u = uid := by simpa using hpa
      have hrest : ∀ b ∈ l, (idf b == uid) = false := by
        intro b hb
        cases hq : (idf b == uid) with
        | false => rfl
        | true =>
          exfalso
          apply hnd.1
          have hbu : idf b = uid := by simpa using hq
          have hmem : idf b ∈ l.map idf := List.mem_map_of_mem idf hb
          rwa [hbu, ← hiu] at hmem
      simp only [List.map_cons, List.sum_cons]
      rw [if_pos (by simp [hpa])]
      rw [map_update_eq_self idf uid f l hrest]
      omega

theorem sumEscrow_eq : ∀ l : List Request, sumEscrow l = (l.map escrowVal).sum
  | [] => rfl
  | r :: l => by
    have ih := sumEscrow_eq l
    simp only [sumEscrow] at ih ⊢
    rw [List.filter_cons]
    cases h : (r.status != "Completed") with
    | false =>
      rw [if_neg (by simp [h])]
      simp [escrowVal, ih, h]
    | true =>
      rw [if_pos (by simp [h])]
      simp [escrowVal, ih, h]

theorem sumEscrow_append_one (l : List Request) (r : Request) :
    sumEscrow (l ++ [r]) = sumEscrow l + escrowVal r := by
  rw [sumEscrow_eq, sumEscrow_eq]
  simp

/-! ### Totality and transitivity of the leaderboard and chat orders -/

theorem chLe_total : ∀ a b : List Char, chLe a b = true ∨ chLe b a = true
  | [], _ => Or.inl rfl
  | _ :: _, [] => Or.inr rfl
  | a :: as, b :: bs => by
    simp only [chLe]
    rcases chLe_total as bs with h | h <;>
      split_ifs <;>
      first
      | exact Or.inl rfl
      | exact Or.inr rfl
      | omega
      | exact Or.inl h
      | exact Or.inr h

theorem chLe_trans : ∀ a b c : List Char,
    chLe a b = true → chLe b c = true → chLe a c = true
  | [], _, _, _, _ => rfl
  | _ :: _, [], _, h1, _ => by exact Bool.noConfusion h1
  | _ :: _, _ :: _, [], _, h2 => by exact Bool.noConfusion h2
  | a :: as, b :: bs, c :: cs, h1, h2 => by
    simp only [chLe] at h1 h2 ⊢
    split_ifs at h1 h2 ⊢ <;>
      first
      | rfl
      | exact Bool.noConfusion h1
      | exact Bool.noConfusion h2
      | exact chLe_trans as bs cs h1 h2
      | omega

theorem tupLe_total (x y : Nat × Nat × List Char) : tupLe x y = true ∨ tupLe y x = true := by
  simp only [tupLe]
  split_ifs <;>
    first
    | exact Or.inl rfl
    | exact Or.inr rfl
    | omega
    | exact chLe_total x.2.2 y.2.2

theorem tupLe_trans (x y z : Nat × Nat × List Char)
    (h1 : tupLe x y = true) (h2 : tupLe y z = true) : tupLe x z = true := by
  simp only [tupLe] at h1 h2 ⊢
  split_ifs at h1 h2 ⊢ <;>
    first
    | rfl
    | exact Bool.noConfusion h1
    | exact Bool.noConfusion h2
    | exact chLe_trans x.2.2 y.2.2 z.2.2 h1 h2
    | omega

instance : IsTotal User keyGe :=
  ⟨fun a b => (tupLe_total (userKey b) (userKey a)).imp id id⟩

instance : IsTrans User keyGe :=
  ⟨fun _ b _ h1 h2 => tupLe_trans _ (userKey b) _ h2 h1⟩

/-! ### Claim theorems -/

/-- C9: `get_karmic_rank` is a pure function of experience points returning
exactly Newbie on 0–9, Helper Recruit on 10–49, Active Peer on 50–199,
Community Elder on 200–499 and Karmic Master from 500 up. -/
theorem get_karmic_rank_bands (xp : Nat) :
    (xp ≤ 9 → get_karmic_rank xp = "Newbie") ∧
    (10 ≤ xp → xp ≤ 49 → get_karmic_rank xp = "Helper Recruit") ∧
    (50 ≤ xp → xp ≤ 199 → get_karmic_rank xp = "Active Peer") ∧
    (200 ≤ xp → xp ≤ 499 → get_karmic_rank xp = "Community Elder") ∧
    (500 ≤ xp → get_karmic_rank xp = "Karmic Master") := by
  unfold get_karmic_rank
  refine ⟨?_, ?_, ?_, ?_, ?_⟩ <;> intros <;> split_ifs <;> first | rfl | omega

/-- Witness for C9 at one point of each band. -/
theorem get_karmic_rank_bands_witness :
    get_karmic_rank 5 = "Newbie" ∧ get_karmic_rank 10 = "Helper Recruit" ∧
    get_karmic_rank 50 = "Active Peer" ∧ get_karmic_rank 200 = "Community Elder" ∧
    get_karmic_rank 500 = "Karmic Master" :=
  ⟨(get_karmic_rank_bands 5).1 (by decide),
   (get_karmic_rank_bands 10).2.1 (by decide) (by decide),
   (get_karmic_rank_bands 50).2.2.1 (by decide) (by decide),
   (get_karmic_rank_bands 200).2.2.2.1 (by decide) (by decide),
   (get_karmic_rank_bands 500).2.2.2.2 (by decide)⟩

/-- C8: the leaderboard is sorted descending by the key
(experience points, coins, username), holds at most ten users drawn from the
user table, and on the spec's example with (XP, coins, name) tuples
(500,10,"b"), (500,20,"a"), (100,0,"c") the order is a, b, c. -/
theorem leaderboard_spec :
    (∀ s : St, List.Sorted keyGe (leaderboard s) ∧ (leaderboard s).length ≤ 10 ∧
      List.Subperm (leaderboard s) s.users) ∧
    (leaderboard ex8).map (fun u => u.username) = ["a", "b", "c"] := by
  constructor
  · intro s
    refine ⟨?_, ?_, ?_⟩
    · exact List.Pairwise.sublist (List.take_sublist 10 _)
        (List.sorted_insertionSort keyGe s.users)
    · simp [leaderboard]
    · exact ((List.take_sublist 10 _).subperm).trans
        (List.perm_insertionSort keyGe s.users).subperm
  · decide

/-- C5: a created request carries `xp_value = reward_coins`, both equal to the
mapped value of the difficulty label (Easy 10, Medium 25, Hard 50), and 10 for
any label outside the mapping. -/
theorem create_request_difficulty_values (s : St) (sess : Option Nat)
    (title description difficulty : String) (requester : User)
    (hres : resolveUser s sess = some requester)
    (hcoins : (XP_MAPPING difficulty).getD 10 ≤ requester.coins) :
    (create_request s sess title description difficulty).1.requests =
      s.requests ++
        [{ id := nextReqId s.requests, title := title, description := description
           reward_coins := (XP_MAPPING difficulty).getD 10, difficulty := difficulty
           xp_value := (XP_MAPPING difficulty).getD 10, requester_id := requester.id
           helper_id := none, status := "Live" }] ∧
    XP_MAPPING "Easy" = some 10 ∧ XP_MAPPING "Medium" = some 25 ∧
    XP_MAPPING "Hard" = some 50 ∧
    (difficulty ≠ "Easy" → difficulty ≠ "Medium" → difficulty ≠ "Hard" →
      (XP_MAPPING difficulty).getD 10 = 10) := by
  refine ⟨?_, rfl, rfl, rfl, ?_⟩
  · simp only [create_request, hres]
    rw [if_neg (by omega)]
  · intro h1 h2 h3
    have hnone : XP_MAPPING difficulty = none := by
      unfold XP_MAPPING
      split <;> simp_all
    rw [hnone]
    rfl

/-- Witness for C5: creating a Hard request in the example state. -/
theorem create_request_difficulty_values_witness :
    (create_request exSt (some 1) "t" "d" "Hard").1.requests =
      exSt.requests ++
        [{ id := nextReqId exSt.requests, title := "t", description := "d"
           reward_coins := (XP_MAPPING "Hard").getD 10, difficulty := "Hard"
           xp_value := (XP_MAPPING "Hard").getD 10, requester_id := userA.id
           helper_id := none, status := "Live" }] ∧
    XP_MAPPING "Easy" = some 10 ∧ XP_MAPPING "Medium" = some 25 ∧
    XP_MAPPING "Hard" = some 50 ∧
    ("Hard" ≠ "Easy" → "Hard" ≠ "Medium" → "Hard" ≠ "Hard" →
      (XP_MAPPING "Hard").getD 10 = 10) :=
  create_request_difficulty_values exSt (some 1) "t" "d" "Hard" userA (by decide) (by decide)

/-- C2: with a resolved requester, creation succeeds exactly when the balance
covers the reward, appending one request and debiting exactly the reward;
otherwise it is rejected, produces no record, and changes nothing. -/
theorem create_request_escrow (s : St) (sess : Option Nat)
    (title description difficulty : String) (requester : User)
    (hres : resolveUser s sess = some requester) :
    ((XP_MAPPING difficulty).getD 10 ≤ requester.coins →
      (create_request s sess title description difficulty).1.requests.length
          = s.requests.length + 1 ∧
      findUser (create_request s sess title description difficulty).1 requester.id
          = some { requester with
                    coins := requester.coins - (XP_MAPPING difficulty).getD 10 }) ∧
    (requester.coins < (XP_MAPPING difficulty).getD 10 →
      create_request s sess title description difficulty =
        (s, .redirected "create_request"
              "You do not have enough Coins to offer this reward!")) := by
  constructor
  · intro hcoins
    obtain ⟨hsess, hfind⟩ := resolveUser_some s sess requester hres
    constructor
    · simp only [create_request, hres]
      rw [if_neg (by omega)]
      simp
    · simp only [create_request, hres]
      rw [if_neg (by omega)]
      show (updUser s.users requester.id _).find? _ = _
      rw [find?_updUser s.users requester.id requester.id
        (fun u => { u with coins := u.coins - (XP_MAPPING difficulty).getD 10 })
        (fun u => rfl)]
      rw [show s.users.find? (fun u => u.id == requester.id) = some requester from hfind]
      simp
  · intro hcoins
    simp only [create_request, hres]
    rw [if_pos hcoins]

/-- Witness for C2: user A (500 coins) creating a Hard request gains a record
and is debited 50; user P (5 coins) is rejected with the state unchanged. -/
theorem create_request_escrow_witness :
    ((create_request exSt (some 1) "t" "d" "Hard").1.requests.length
        = exSt.requests.length + 1 ∧
      findUser (create_request exSt (some 1) "t" "d" "Hard").1 userA.id
        = some { userA with coins := userA.coins - (XP_MAPPING "Hard").getD 10 }) ∧
    create_request exSt (some 3) "t" "d" "Hard" =
      (exSt, .redirected "create_request"
            "You do not have enough Coins to offer this reward!") :=
  ⟨(create_request_escrow exSt (some 1) "t" "d" "Hard" userA (by decide)).1 (by decide),
   (create_request_escrow exSt (some 3) "t" "d" "Hard" userP (by decide)).2 (by decide)⟩

/-- C6: with a resolved acting user, accept succeeds exactly when the request
exists, is Live, and the actor is not the requester; on success the actor
becomes the helper and the status becomes Accepted; self-accept always fails,
and every failure leaves the state unchanged. -/
theorem accept_task_spec (s : St) (sess : Option Nat) (rid : Nat) (u : User)
    (hres : resolveUser s sess = some u) :
    (∀ r, findReq s rid = some r → r.status = "Live" → r.requester_id ≠ u.id →
      accept_task s sess rid =
        ({ s with requests := updReq s.requests rid (fun q => { q with helper_id := some u.id, status := "Accepted" }) },
         .redirected "index" "You accepted the task. Use the chat feature to coordinate!") ∧
      findReq (accept_task s sess rid).1 rid =
        some { r with helper_id := some u.id, status := "Accepted" }) ∧
    (findReq s rid = none →
      accept_task s sess rid =
        (s, .redirected "index" "This request is no longer available.")) ∧
    (∀ r, findReq s rid = some r → r.status ≠ "Live" →
      accept_task s sess rid =
        (s, .redirected "index" "This request is no longer available.")) ∧
    (∀ r, findReq s rid = some r → r.status = "Live" → r.requester_id = u.id →
      accept_task s sess rid =
        (s, .redirected "index" "You cannot accept your own request!")) := by
  refine ⟨?_, ?_, ?_, ?_⟩
  · intro r hr hlive hne
    constructor
    · simp only [accept_task, hr, hres]
      rw [if_neg (by simp [hlive]), if_neg hne]
    · simp only [accept_task, hr, hres]
      rw [if_neg (by simp [hlive]), if_neg hne]
      have hid : r.id = rid := by simpa using List.find?_some hr
      show (updReq s.requests rid _).find? _ = _
      rw [find?_updReq s.requests rid rid
        (fun q => { q with helper_id := some u.id, status := "Accepted" }) (fun q => rfl)]
      rw [show s.requests.find? (fun q => q.id == rid) = some r from hr]
      simp [hid]
  · intro hnone
    simp only [accept_task, hnone]
  · intro r hr hstat
    simp only [accept_task, hr]
    rw [if_pos hstat]
  · intro r hr hlive hself
    simp only [accept_task, hr, hres]
    rw [if_neg (by simp [hlive]), if_pos hself]

/-- Witness for C6: helper B accepts A's live request; A cannot accept it. -/
theorem accept_task_spec_witness :
    (accept_task exSt (some 2) 2 =
      ({ exSt with requests := updReq exSt.requests 2 (fun q => { q with helper_id := some userB.id, status := "Accepted" }) },
       .redirected "index" "You accepted the task. Use the chat feature to coordinate!") ∧
      findReq (accept_task exSt (some 2) 2).1 2 =
        some { reqLive with helper_id := some userB.id, status := "Accepted" }) ∧
    accept_task exSt (some 1) 2 =
      (exSt, .redirected "index" "You cannot accept your own request!") :=
  ⟨(accept_task_spec exSt (some 2) 2 userB (by decide)).1 reqLive
      (by decide) (by decide) (by decide),
   (accept_task_spec exSt (some 1) 2 userA (by decide)).2.2.2 reqLive
      (by decide) (by decide) (by decide)⟩

/-- C1: approving a `Confirmed_By_Helper` request as its requester marks it
`Completed` and credits the assigned helper exactly `reward_coins` coins and
`xp_value` experience points, exactly once: re-invoking approve on the
now-Completed request fails with the error notice and mutates nothing. -/
theorem requester_approve_once (s : St) (sess : Option Nat) (rid : Nat)
    (u : User) (r : Request) (hid : Nat) (h : User)
    (hres : resolveUser s sess = some u)
    (hr : findReq s rid = some r)
    (hstat : r.status = "Confirmed_By_Helper")
    (hreq : r.requester_id = u.id)
    (hhid : r.helper_id = some hid)
    (hh : findUser s hid = some h) :
    requester_approve s sess rid =
      ({ s with
          users := updUser s.users h.id (fun v => { v with coins := v.coins + r.reward_coins, experience_points := v.experience_points + r.xp_value })
          requests := updReq s.requests rid (fun q => { q with status := "Completed" }) },
       .redirected "index" "Approval successful! Coins and XP transferred to the Helper.") ∧
    findReq (requester_approve s sess rid).1 rid = some { r with status := "Completed" } ∧
    findUser (requester_approve s sess rid).1 hid =
      some { h with
              coins := h.coins + r.reward_coins
              experience_points := h.experience_points + r.xp_value } ∧
    requester_approve (requester_approve s sess rid).1 sess rid =
      ((requester_approve s sess rid).1,
       .redirected "index"
         "Error: You are not the requester or the helper has not yet confirmed completion.") := by
  have hrid : r.id = rid := by simpa using List.find?_some hr
  have hhidId : h.id = hid := by simpa using List.find?_some hh
  obtain ⟨hsess, hfindu⟩ := resolveUser_some s sess u hres
  have hhb : r.helper_id.bind (findUser s) = some h := by rw [hhid]; exact hh
  have hguard : ¬ (r.requester_id ≠ u.id ∨ r.status ≠ "Confirmed_By_Helper") := by
    simp [hreq, hstat]
  have hred : requester_approve s sess rid =
      ({ s with
          users := updUser s.users h.id (fun v => { v with coins := v.coins + r.reward_coins, experience_points := v.experience_points + r.xp_value })
          requests := updReq s.requests rid (fun q => { q with status := "Completed" }) },
       .redirected "index" "Approval successful! Coins and XP transferred to the Helper.") := by
    simp only [requester_approve, hr, hres]
    rw [if_neg hguard, hhb]
  have hr2 : findReq (requester_approve s sess rid).1 rid
      = some { r with status := "Completed" } := by
    rw [hred]
    show (updReq s.requests rid _).find? _ = _
    rw [find?_updReq s.requests rid rid (fun q => { q with status := "Completed" })
      (fun q => rfl)]
    rw [show s.requests.find? (fun q => q.id == rid) = some r from hr]
    simp [hrid]
  have hh2 : findUser (requester_approve s sess rid).1 hid
      = some { h with
                coins := h.coins + r.reward_coins
                experience_points := h.experience_points + r.xp_value } := by
    rw [hred]
    show (updUser s.users h.id _).find? _ = _
    rw [find?_updUser s.users h.id hid (fun v => { v with coins := v.coins + r.reward_coins, experience_points := v.experience_points + r.xp_value })
      (fun v => rfl)]
    rw [show s.users.find? (fun v => v.id == hid) = some h from hh]
    simp [hhidId]
  have hres2 : resolveUser (requester_approve s sess rid).1 sess
      = some (if u.id == h.id
          then { u with coins := u.coins + r.reward_coins, experience_points := u.experience_points + r.xp_value }
          else u) := by
    rw [hred, hsess]
    show (updUser s.users h.id _).find? _ = _
    rw [find?_updUser s.users h.id u.id (fun v => { v with coins := v.coins + r.reward_coins, experience_points := v.experience_points + r.xp_value })
      (fun v => rfl)]
    rw [show s.users.find? (fun v => v.id == u.id) = some u from hfindu]
    rfl
  refine ⟨hred, hr2, hh2, ?_⟩
  have hr2' := hr2
  have hres2' := hres2
  rw [hred] at hr2' hres2' ⊢
  dsimp only at hr2' hres2' ⊢
  simp only [requester_approve, hr2', hres2']
  rw [if_pos (Or.inr (by decide))]

/-- Witness for C1: user A approves the confirmed request in the example
state, helper B is credited 25 coins and 25 XP, and a second approval fails
without mutation. -/
theorem requester_approve_once_witness :
    requester_approve exSt (some 1) 1 =
      ({ exSt with
          users := updUser exSt.users userB.id (fun v => { v with coins := v.coins + reqCBH.reward_coins, experience_points := v.experience_points + reqCBH.xp_value })
          requests := updReq exSt.requests 1 (fun q => { q with status := "Completed" }) },
       .redirected "index" "Approval successful! Coins and XP transferred to the Helper.") ∧
    findReq (requester_approve exSt (some 1) 1).1 1 = some { reqCBH with status := "Completed" } ∧
    findUser (requester_approve exSt (some 1) 1).1 2 =
      some { userB with
              coins := userB.coins + reqCBH.reward_coins
              experience_points := userB.experience_points + reqCBH.xp_value } ∧
    requester_approve (requester_approve exSt (some 1) 1).1 (some 1) 1 =
      ((requester_approve exSt (some 1) 1).1,
       .redirected "index"
         "Error: You are not the requester or the helper has not yet confirmed completion.") :=
  requester_approve_once exSt (some 1) 1 userA reqCBH 2 userB
    (by decide) (by decide) (by decide) (by decide) (by decide) (by decide)

/-- C3: a request's status only moves forward along
Live → Accepted → Confirmed_By_Helper → Completed: accept changes a status
only from Live to Accepted, confirm only from Accepted to Confirmed_By_Helper,
approve only from Confirmed_By_Helper to Completed, and each of the three
operations invoked on a request in any other status leaves the whole state
unchanged. -/
theorem status_forward_only (s : St) (sess : Option Nat) (rid : Nat) :
    (∀ r, findReq s rid = some r → r.status ≠ "Live" →
      (accept_task s sess rid).1 = s) ∧
    (∀ r r', findReq s rid = some r → findReq (accept_task s sess rid).1 rid = some r' →
      r' = r ∨ (r.status = "Live" ∧
        ∃ v, r' = { r with helper_id := some v, status := "Accepted" })) ∧
    (∀ r, findReq s rid = some r → r.status ≠ "Accepted" →
      (helper_confirm s sess rid).1 = s) ∧
    (∀ r r', findReq s rid = some r → findReq (helper_confirm s sess rid).1 rid = some r' →
      r' = r ∨ (r.status = "Accepted" ∧ r' = { r with status := "Confirmed_By_Helper" })) ∧
    (∀ r, findReq s rid = some r → r.status ≠ "Confirmed_By_Helper" →
      (requester_approve s sess rid).1 = s) ∧
    (∀ r r', findReq s rid = some r → findReq (requester_approve s sess rid).1 rid = some r' →
      r' = r ∨ (r.status = "Confirmed_By_Helper" ∧ r' = { r with status := "Completed" })) := by
  have hacceptU : ∀ r, findReq s rid = some r → r.status ≠ "Live" →
      (accept_task s sess rid).1 = s := by
    intro r hr hstat
    simp only [accept_task, hr]
    rw [if_pos hstat]
  have hconfU : ∀ r, findReq s rid = some r → r.status ≠ "Accepted" →
      (helper_confirm s sess rid).1 = s := by
    intro r hr hstat
    rcases hsess : resolveUser s sess with _ | v
    · simp only [helper_confirm, hr, hsess]
    · simp only [helper_confirm, hr, hsess]
      rw [if_pos (Or.inr hstat)]
  have happU : ∀ r, findReq s rid = some r → r.status ≠ "Confirmed_By_Helper" →
      (requester_approve s sess rid).1 = s := by
    intro r hr hstat
    rcases hsess : resolveUser s sess with _ | v
    · simp only [requester_approve, hr, hsess]
    · simp only [requester_approve, hr, hsess]
      rw [if_pos (Or.inr hstat)]
  refine ⟨hacceptU, ?_, hconfU, ?_, happU, ?_⟩
  · intro r r' hr hr'
    by_cases hlive : r.status = "Live"
    · rcases hsess : resolveUser s sess with _ | v
      · have hs : (accept_task s sess rid).1 = s := by
          simp only [accept_task, hr, hsess]
          rw [if_neg (by simp [hlive])]
        rw [hs, hr] at hr'
        exact Or.inl (Option.some.inj hr').symm
      · by_cases hself : r.requester_id = v.id
        · have hs : (accept_task s sess rid).1 = s := by
            simp only [accept_task, hr, hsess]
            rw [if_neg (by simp [hlive]), if_pos hself]
          rw [hs, hr] at hr'
          exact Or.inl (Option.some.inj hr').symm
        · have hs : findReq (accept_task s sess rid).1 rid =
              some { r with helper_id := some v.id, status := "Accepted" } := by
            simp only [accept_task, hr, hsess]
            rw [if_neg (by simp [hlive]), if_neg hself]
            show (updReq s.requests rid _).find? _ = _
            exact find?_updReq_found s.requests rid
              (fun q => { q with helper_id := some v.id, status := "Accepted" })
              (fun q => rfl) r hr
          rw [hs] at hr'
          exact Or.inr ⟨hlive, v.id, (Option.some.inj hr').symm⟩
    · have hs := hacceptU r hr hlive
      rw [hs, hr] at hr'
      exact Or.inl (Option.some.inj hr').symm
  · intro r r' hr hr'
    rcases hsess : resolveUser s sess with _ | v
    · have hs : (helper_confirm s sess rid).1 = s := by
        simp only [helper_confirm, hr, hsess]
      rw [hs, hr] at hr'
      exact Or.inl (Option.some.inj hr').symm
    · by_cases hg : (r.helper_id ≠ some v.id ∨ r.status ≠ "Accepted")
      · have hs : (helper_confirm s sess rid).1 = s := by
          simp only [helper_confirm, hr, hsess]
          rw [if_pos hg]
        rw [hs, hr] at hr'
        exact Or.inl (Option.some.inj hr').symm
      · have hg2 := hg
        push_neg at hg2
        have hs : findReq (helper_confirm s sess rid).1 rid =
            some { r with status := "Confirmed_By_Helper" } := by
          simp only [helper_confirm, hr, hsess]
          rw [if_neg hg]
          show (updReq s.requests rid _).find? _ = _
          exact find?_updReq_found s.requests rid
            (fun q => { q with status := "Confirmed_By_Helper" }) (fun q => rfl) r hr
        rw [hs] at hr'
        exact Or.inr ⟨hg2.2, (Option.some.inj hr').symm⟩
  · intro r r' hr hr'
    rcases hsess : resolveUser s sess with _ | v
    · have hs : (requester_approve s sess rid).1 = s := by
        simp only [requester_approve, hr, hsess]
      rw [hs, hr] at hr'
      exact Or.inl (Option.some.inj hr').symm
    · by_cases hg : (r.requester_id ≠ v.id ∨ r.status ≠ "Confirmed_By_Helper")
      · have hs : (requester_approve s sess rid).1 = s := by
          simp only [requester_approve, hr, hsess]
          rw [if_pos hg]
        rw [hs, hr] at hr'
        exact Or.inl (Option.some.inj hr').symm
      · have hg2 := hg
        push_neg at hg2
        rcases hhb : r.helper_id.bind (findUser s) with _ | hlp
        · have hs : findReq (requester_approve s sess rid).1 rid =
              some { r with status := "Completed" } := by
            simp only [requester_approve, hr, hsess]
            rw [if_neg hg, hhb]
            show (updReq s.requests rid _).find? _ = _
            exact find?_updReq_found s.requests rid
              (fun q => { q with status := "Completed" }) (fun q => rfl) r hr
          rw [hs] at hr'
          exact Or.inr ⟨hg2.2, (Option.some.inj hr').symm⟩
        · have hs : findReq (requester_approve s sess rid).1 rid =
              some { r with status := "Completed" } := by
            simp only [requester_approve, hr, hsess]
            rw [if_neg hg, hhb]
            show (updReq s.requests rid _).find? _ = _
            exact find?_updReq_found s.requests rid
              (fun q => { q with status := "Completed" }) (fun q => rfl) r hr
          rw [hs] at hr'
          exact Or.inr ⟨hg2.2, (Option.some.inj hr').symm⟩

/-- Witness for C3: on the example state, accept and confirm leave the
confirmed request untouched, approve leaves the live request untouched, and
accepting the live request moves it exactly to Accepted. -/
theorem status_forward_only_witness :
    (accept_task exSt (some 2) 1).1 = exSt ∧
    (helper_confirm exSt (some 2) 2).1 = exSt ∧
    (requester_approve exSt (some 1) 2).1 = exSt ∧
    ({ reqLive with helper_id := some 2, status := "Accepted" } = reqLive ∨
      (reqLive.status = "Live" ∧
        ∃ v, ({ reqLive with helper_id := some 2, status := "Accepted" } : Request)
          = { reqLive with helper_id := some v, status := "Accepted" })) :=
  ⟨(status_forward_only exSt (some 2) 1).1 reqCBH (by decide) (by decide),
   (status_forward_only exSt (some 2) 2).2.2.1 reqLive (by decide) (by decide),
   (status_forward_only exSt (some 1) 2).2.2.2.2.1 reqLive (by decide) (by decide),
   (status_forward_only exSt (some 2) 2).2.1 reqLive
     { reqLive with helper_id := some 2, status := "Accepted" } (by decide) (by decide)⟩

/-- C7: with a resolved acting user, appending a chat message succeeds for the
requester or the assigned helper of an existing request when the content is
non-empty, appending exactly that message; a non-participant is rejected and
empty content is rejected, in both cases with no message appended and the
state unchanged; and the rendered chat thread of any request is in ascending
timestamp order. -/
theorem send_message_spec (s : St) (sess : Option Nat) (rid : Nat)
    (content : String) (now : Nat) (u : User)
    (hres : resolveUser s sess = some u) :
    (∀ r, findReq s rid = some r → content ≠ "" →
      (r.requester_id = u.id ∨ r.helper_id = some u.id) →
      send_message s sess rid content now =
        ({ s with messages := s.messages ++ [{ id := nextMsgId s.messages, request_id := rid, sender_id := u.id, content := content, timestamp := now }] },
         .redirectedNoFlash "chat_view")) ∧
    (∀ r, findReq s rid = some r → content ≠ "" →
      r.requester_id ≠ u.id → r.helper_id ≠ some u.id →
      send_message s sess rid content now =
        (s, .redirected "index" "You are not authorized to chat about this task.")) ∧
    (content = "" →
      send_message s sess rid content now =
        (s, .redirected "chat_view" "Cannot send empty message or task does not exist.")) ∧
    (∀ s' rid', List.Sorted tsLe (chat_messages s' rid')) := by
  refine ⟨?_, ?_, ?_, ?_⟩
  · intro r hr hcon hpart
    rcases hpart with hp | hp
    · simp only [send_message, hr, hres]
      rw [if_neg hcon, if_neg (fun hc => hc.1 hp)]
    · simp only [send_message, hr, hres]
      rw [if_neg hcon, if_neg (fun hc => hc.2 hp)]
  · intro r hr hcon hp1 hp2
    simp only [send_message, hr, hres]
    rw [if_neg hcon, if_pos ⟨hp1, hp2⟩]
  · intro hcon
    rcases hr : findReq s rid with _ | r
    · simp only [send_message, hr]
    · simp only [send_message, hr]
      rw [if_pos hcon]
  · intro s' rid'
    exact List.sorted_insertionSort tsLe _

/-- Witness for C7: helper B posts in the chat of request 1; outsider P is
rejected; empty content is rejected; the example thread (timestamps 5 then 3)
is rendered in ascending order. -/
theorem send_message_spec_witness :
    send_message exSt (some 2) 1 "on my way" 9 =
      ({ exSt with messages := exSt.messages ++ [{ id := nextMsgId exSt.messages, request_id := 1, sender_id := userB.id, content := "on my way", timestamp := 9 }] },
       .redirectedNoFlash "chat_view") ∧
    send_message exSt (some 3) 1 "hey" 9 =
      (exSt, .redirected "index" "You are not authorized to chat about this task.") ∧
    send_message exSt (some 2) 1 "" 9 =
      (exSt, .redirected "chat_view" "Cannot send empty message or task does not exist.") ∧
    List.Sorted tsLe (chat_messages exSt 1) :=
  ⟨(send_message_spec exSt (some 2) 1 "on my way" 9 userB (by decide)).1 reqCBH
      (by decide) (by decide) (Or.inr (by decide)),
   (send_message_spec exSt (some 3) 1 "hey" 9 userP (by decide)).2.1 reqCBH
      (by decide) (by decide) (by decide) (by decide),
   (send_message_spec exSt (some 2) 1 "" 9 userB (by decide)).2.2.1 (by decide),
   (send_message_spec exSt (some 2) 1 "x" 9 userB (by decide)).2.2.2 exSt 1⟩

/-- C4 counterexample: not every input is recovered as a transient notice
with a redirect. With no logged-in session, accepting the live request of the
example state dereferences `helper.id` on `None` and raises `AttributeError`;
and approving a confirmed request whose helper row is missing commits the
status and then raises `NameError` on the undefined `new_rank`. -/
theorem error_handling_crash_counterexample :
    (accept_task exSt none 2).2 = Outcome.crash "AttributeError" ∧
    (requester_approve { exSt with users := [userA] } (some 1) 1).2 =
      Outcome.crash "NameError" := by
  constructor <;> decide

/-- C4 (amended): whenever the acting user resolves to an existing user and,
for approval, the assigned helper row of the confirmed request exists, every
error kind on accept, confirm, approve and chat is recovered at the point of
the action as a redirect with a transient notice, and create never raises for
any session, so none of these inputs is fatal to the process. -/
theorem no_crash_with_resolved_actor (s : St) (sess : Option Nat)
    (rid : Nat) (title description difficulty content : String) (now : Nat)
    (u : User) (hres : resolveUser s sess = some u)
    (hhelper : ∀ r, findReq s rid = some r → r.status = "Confirmed_By_Helper" →
      (r.helper_id.bind (findUser s)).isSome) :
    (∀ sess', Outcome.crashed (create_request s sess' title description difficulty).2 = false) ∧
    Outcome.crashed (accept_task s sess rid).2 = false ∧
    Outcome.crashed (helper_confirm s sess rid).2 = false ∧
    Outcome.crashed (requester_approve s sess rid).2 = false ∧
    Outcome.crashed (send_message s sess rid content now).2 = false := by
  refine ⟨?_, ?_, ?_, ?_, ?_⟩
  · intro sess'
    rcases hru : resolveUser s sess' with _ | v
    · simp only [create_request, hru]
      rfl
    · simp only [create_request, hru]
      by_cases hc : v.coins < (XP_MAPPING difficulty).getD 10
      · rw [if_pos hc]
        rfl
      · rw [if_neg hc]
        rfl
  · rcases hr : findReq s rid with _ | r
    · simp only [accept_task, hr]
      rfl
    · simp only [accept_task, hr, hres]
      by_cases hl : r.status ≠ "Live"
      · rw [if_pos hl]
        rfl
      · rw [if_neg hl]
        by_cases hself : r.requester_id = u.id
        · rw [if_pos hself]
          rfl
        · rw [if_neg hself]
          rfl
  · rcases hr : findReq s rid with _ | r
    · simp only [helper_confirm, hr]
      rfl
    · simp only [helper_confirm, hr, hres]
      by_cases hg : (r.helper_id ≠ some u.id ∨ r.status ≠ "Accepted")
      · rw [if_pos hg]
        rfl
      · rw [if_neg hg]
        rfl
  · rcases hr : findReq s rid with _ | r
    · simp only [requester_approve, hr]
      rfl
    · simp only [requester_approve, hr, hres]
      by_cases hg : (r.requester_id ≠ u.id ∨ r.status ≠ "Confirmed_By_Helper")
      · rw [if_pos hg]
        rfl
      · rw [if_neg hg]
        have hg2 := hg
        push_neg at hg2
        have hsome := hhelper r hr hg2.2
        rcases hhb : r.helper_id.bind (findUser s) with _ | hlp
        · rw [hhb] at hsome
          exact absurd hsome (by simp)
        · rfl
  · rcases hr : findReq s rid with _ | r
    · simp only [send_message, hr]
      rfl
    · simp only [send_message, hr, hres]
      by_cases hc : content = ""
      · rw [if_pos hc]
        rfl
      · rw [if_neg hc]
        by_cases hp : (r.requester_id ≠ u.id ∧ r.helper_id ≠ some u.id)
        · rw [if_pos hp]
          rfl
        · rw [if_neg hp]
          rfl

/-- Witness for C4 (amended): no crash on the example state for user A acting
on the confirmed request, whose helper row exists. -/
theorem no_crash_with_resolved_actor_witness :
    (∀ sess', Outcome.crashed (create_request exSt sess' "t" "d" "Hard").2 = false) ∧
    Outcome.crashed (accept_task exSt (some 1) 1).2 = false ∧
    Outcome.crashed (helper_confirm exSt (some 1) 1).2 = false ∧
    Outcome.crashed (requester_approve exSt (some 1) 1).2 = false ∧
    Outcome.crashed (send_message exSt (some 1) 1 "hello" 9).2 = false :=
  no_crash_with_resolved_actor exSt (some 1) 1 "t" "d" "Hard" "hello" 9 userA
    (by decide)
    (by
      intro r hr hst
      have hr0 : findReq exSt 1 = some reqCBH := by rfl
      rw [hr0] at hr
      rw [← Option.some.inj hr]
      decide)

/-- C10: coins are conserved. In a state with distinct user ids, distinct
request ids, and an existing helper row behind any confirmed request, none of
the four lifecycle operations changes the sum of all coin balances plus the
rewards of the non-Completed requests: create moves the reward into escrow,
approve moves it from escrow to the helper, and nothing mints or burns. -/
theorem coins_conserved (s : St) (sess : Option Nat) (rid : Nat)
    (title description difficulty : String)
    (hndu : (s.users.map (fun u => u.id)).Nodup)
    (hndr : (s.requests.map (fun r => r.id)).Nodup)
    (hhelper : ∀ r, findReq s rid = some r → r.status = "Confirmed_By_Helper" →
      (r.helper_id.bind (findUser s)).isSome) :
    totalWealth (create_request s sess title description difficulty).1 = totalWealth s ∧
    totalWealth (accept_task s sess rid).1 = totalWealth s ∧
    totalWealth (helper_confirm s sess rid).1 = totalWealth s ∧
    totalWealth (requester_approve s sess rid).1 = totalWealth s := by
  refine ⟨?_, ?_, ?_, ?_⟩
  · rcases hru : resolveUser s sess with _ | v
    · simp only [create_request, hru]
    · obtain ⟨hsess, hfv⟩ := resolveUser_some s sess v hru
      by_cases hc : v.coins < (XP_MAPPING difficulty).getD 10
      · simp only [create_request, hru]
        rw [if_pos hc]
      · simp only [create_request, hru]
        rw [if_neg hc]
        have hfv' : s.users.find? (fun w => w.id == v.id) = some v := hfv
        have hsum := sum_map_update (fun u => u.coins) (fun u => u.id)
          v.id (fun u => { u with coins := u.coins - (XP_MAPPING difficulty).getD 10 })
          s.users hndu v hfv' 
        try dsimp only
        simp only [totalWealth]
        try dsimp only
        rw [sumEscrow_append_one]
        simp only [escrowVal]
        rw [if_pos (by decide)]
        try dsimp only
        simp only [sumCoins, updUser]
        try dsimp only at hsum
        omega
  · rcases hr : findReq s rid with _ | r
    · simp only [accept_task, hr]
    · by_cases hl : r.status ≠ "Live"
      · simp only [accept_task, hr]
        rw [if_pos hl]
      · have hlive : r.status = "Live" := of_not_not hl
        rcases hru : resolveUser s sess with _ | v
        · simp only [accept_task, hr, hru]
          rw [if_neg hl]
        · by_cases hself : r.requester_id = v.id
          · simp only [accept_task, hr, hru]
            rw [if_neg hl, if_pos hself]
          · simp only [accept_task, hr, hru]
            rw [if_neg hl, if_neg hself]
            have hrf : s.requests.find? (fun q => q.id == rid) = some r := hr
            have hsum := sum_map_update escrowVal (fun q => q.id) rid
              (fun q => { q with helper_id := some v.id, status := "Accepted" })
              s.requests hndr r hrf
            have he1 : escrowVal r = r.reward_coins := by simp [escrowVal, hlive]
            have he2 : escrowVal
                { r with helper_id := some v.id, status := "Accepted" }
                = r.reward_coins := by simp [escrowVal]
            try dsimp only at hsum
            rw [he1, he2] at hsum
            try dsimp only
            simp only [totalWealth]
            try dsimp only
            rw [sumEscrow_eq, sumEscrow_eq]
            simp only [updReq]
            omega
  · rcases hr : findReq s rid with _ | r
    · simp only [helper_confirm, hr]
    · rcases hru : resolveUser s sess with _ | v
      · simp only [helper_confirm, hr, hru]
      · by_cases hg : (r.helper_id ≠ some v.id ∨ r.status ≠ "Accepted")
        · simp only [helper_confirm, hr, hru]
          rw [if_pos hg]
        · have hg2 := hg
          push_neg at hg2
          simp only [helper_confirm, hr, hru]
          rw [if_neg hg]
          have hrf : s.requests.find? (fun q => q.id == rid) = some r := hr
          have hsum := sum_map_update escrowVal (fun q => q.id) rid
            (fun q => { q with status := "Confirmed_By_Helper" })
            s.requests hndr r hrf
          have he1 : escrowVal r = r.reward_coins := by simp [escrowVal, hg2.2]
          have he2 : escrowVal { r with status := "Confirmed_By_Helper" }
              = r.reward_coins := by simp [escrowVal]
          try dsimp only at hsum
          rw [he1, he2] at hsum
          try dsimp only
          simp only [totalWealth]
          try dsimp only
          rw [sumEscrow_eq, sumEscrow_eq]
          simp only [updReq]
          omega
  · rcases hr : findReq s rid with _ | r
    · simp only [requester_approve, hr]
    · rcases hru : resolveUser s sess with _ | v
      · simp only [requester_approve, hr, hru]
      · by_cases hg : (r.requester_id ≠ v.id ∨ r.status ≠ "Confirmed_By_Helper")
        · simp only [requester_approve, hr, hru]
          rw [if_pos hg]
        · have hg2 := hg
          push_neg at hg2
          simp only [requester_approve, hr, hru]
          rw [if_neg hg]
          have hsome := hhelper r hr hg2.2
          rcases hhb : r.helper_id.bind (findUser s) with _ | hlp
          · rw [hhb] at hsome
            exact absurd hsome (by simp)
          · rcases hhid : r.helper_id with _ | hid
            · rw [hhid] at hhb
              exact absurd hhb (by simp)
            · rw [hhid] at hhb
              simp only [Option.some_bind] at hhb
              have hfh : s.users.find? (fun w => w.id == hlp.id) = some hlp := by
                have hidEq : hlp.id = hid := by simpa using List.find?_some hhb
                rw [hidEq]
                exact hhb
              have hsumU := sum_map_update (fun w => w.coins) (fun w => w.id) hlp.id
                (fun w => { w with
                    coins := w.coins + r.reward_coins
                    experience_points := w.experience_points + r.xp_value })
                s.users hndu hlp hfh
              have hrf : s.requests.find? (fun q => q.id == rid) = some r := hr
              have hsumR := sum_map_update escrowVal (fun q => q.id) rid
                (fun q => { q with status := "Completed" }) s.requests hndr r hrf
              have he1 : escrowVal r = r.reward_coins := by simp [escrowVal, hg2.2]
              have he2 : escrowVal { r with status := "Completed" } = 0 := by
                simp [escrowVal]
              try dsimp only at hsumU hsumR
              rw [he1, he2] at hsumR
              try dsimp only
              simp only [totalWealth]
              try dsimp only
              rw [sumEscrow_eq, sumEscrow_eq]
              simp only [updReq, updUser, sumCoins]
              omega

/-- Witness for C10: on the example state (distinct ids, helper row present),
all four operations preserve total wealth; e.g. user A approving request 1
moves 25 coins from escrow to helper B. -/
theorem coins_conserved_witness :
    totalWealth (create_request exSt (some 1) "t" "d" "Hard").1 = totalWealth exSt ∧
    totalWealth (accept_task exSt (some 1) 1).1 = totalWealth exSt ∧
    totalWealth (helper_confirm exSt (some 1) 1).1 = totalWealth exSt ∧
    totalWealth (requester_approve exSt (some 1) 1).1 = totalWealth exSt :=
  coins_conserved exSt (some 1) 1 "t" "d" "Hard" (by decide) (by decide)
    (by
      intro r hr hst
      have hr0 : findReq exSt 1 = some reqCBH := by rfl
      rw [hr0] at hr
      rw [← Option.some.inj hr]
      decide)

end Karmic
